import Mathlib

/-!
Verification development for the AADIS repository (document ingestion,
knowledge store, and question-answering pipeline).

The Python sources are shallowly embedded as Lean definitions:

  - my_doc_agents.py : DocumentProcessingCrew._chunk_text and
    DocumentProcessingCrew.process_document
  - knowledge_base.py : KnowledgeBase._table_to_text, store_document,
    search_text, search_tables, list_documents, delete_document
  - my_qa_agents.py : QACrew.answer_question

External collaborators (the chroma vector backend, the crewai reasoning
oracle, and the binary file parsers) are modelled as explicit parameters:
their result is either a value or an error, mirroring a Python call that
either returns or raises.
-/

namespace AADIS

/-! ## Python string primitives

Models of the Python builtins used by the sources: str.split() with no
argument (split on whitespace runs, dropping empty pieces) and
sep.join(list).
-/

/-- Accumulating loop for pySplit: walk the characters, growing the
current word in acc (reversed); a whitespace character closes the current
word if it is non-empty, and the end of the input flushes a final
non-empty word. -/
def pySplitAux : List Char → List Char → List String
  | acc, [] => if acc.isEmpty then [] else [String.mk acc.reverse]
  | acc, ch :: rest =>
    if ch.isWhitespace then
      (if acc.isEmpty then [] else [String.mk acc.reverse]) ++ pySplitAux [] rest
    else pySplitAux (ch :: acc) rest

/-- Model of Python str.split() with no arguments: split on runs of
whitespace characters and drop the empty pieces, so the result is the
whitespace-normalized word sequence of the input. -/
def pySplit (text : String) : List String :=
  pySplitAux [] text.data

/-- Model of Python sep.join(parts): concatenate the parts with sep
between consecutive elements. -/
def pyJoin (sep : String) : List String → String
  | [] => ""
  | [part] => part
  | part :: rest => part ++ sep ++ pyJoin sep rest

/-! ## Chunker (my_doc_agents.py, DocumentProcessingCrew._chunk_text)

The Python loop appends each word to current_chunk, adds len(word) + 1 to
current_size, and when current_size >= chunk_size it emits
" ".join(current_chunk) and resets both accumulators; a non-empty
remainder is flushed as a final chunk.
-/

/-- Loop of _chunk_text over the word list, carried out at the level of
word lists: cur is current_chunk and size is current_size. -/
def chunkLoop (chunk_size : Nat) : List String → List String → Nat → List (List String)
  | [], cur, _ => if cur.isEmpty then [] else [cur]
  | w :: ws, cur, size =>
    let cur' := cur ++ [w]
    let size' := size + (w.length + 1)
    if chunk_size ≤ size' then cur' :: chunkLoop chunk_size ws [] 0
    else chunkLoop chunk_size ws cur' size'

/-- Word-level view of _chunk_text: the chunks as lists of words, before
the final " ".join. -/
def chunkWords (text : String) (chunk_size : Nat) : List (List String) :=
  chunkLoop chunk_size (pySplit text) [] 0

/-- DocumentProcessingCrew._chunk_text: split the text into words and
greedily accumulate them into chunks, emitting each chunk as the words
joined with single spaces. The Python default for chunk_size is 500. -/
def chunk_text (text : String) (chunk_size : Nat) : List String :=
  (chunkWords text chunk_size).map (pyJoin " ")

/-- Python running size of a chunk: the sum over its words of
len(word) + 1, exactly what current_size accumulates. -/
def listSize (l : List String) : Nat :=
  (l.map (fun w => w.length + 1)).sum

/-! ### Chunker lemmas -/

theorem chunkLoop_join (cs : Nat) :
    ∀ (ws cur : List String) (size : Nat),
      (chunkLoop cs ws cur size).flatten = cur ++ ws := by
  intro ws
  induction ws with
  | nil =>
    intro cur size
    by_cases h : cur.isEmpty
    · simp [chunkLoop, h, List.isEmpty_iff.mp h]
    · simp [chunkLoop, h]
  | cons w ws ih =>
    intro cur size
    simp only [chunkLoop]
    by_cases h : cs ≤ size + (w.length + 1)
    · simp [h, ih]
    · simp [h, ih]

theorem chunkLoop_ne_nil (cs : Nat) :
    ∀ (ws cur : List String) (size : Nat),
      ∀ c ∈ chunkLoop cs ws cur size, c ≠ [] := by
  intro ws
  induction ws with
  | nil =>
    intro cur size c hc
    by_cases h : cur.isEmpty
    · simp [chunkLoop, h] at hc
    · simp [chunkLoop, h] at hc
      subst hc
      intro hn
      exact h (by simp [hn])
  | cons w ws ih =>
    intro cur size c hc
    simp only [chunkLoop] at hc
    by_cases h : cs ≤ size + (w.length + 1)
    · simp only [h, if_true, List.mem_cons] at hc
      rcases hc with hc | hc
      · subst hc; simp
      · exact ih [] 0 c hc
    · simp only [h, if_false] at hc
      exact ih (cur ++ [w]) (size + (w.length + 1)) c hc

theorem pyJoin_length (sep : String) :
    ∀ (l : List String), l ≠ [] →
      (pyJoin sep l).length + sep.length =
        (l.map (fun w => w.length + sep.length)).sum := by
  intro l
  induction l with
  | nil => intro h; exact absurd rfl h
  | cons w rest ih =>
    intro _
    cases rest with
    | nil => simp [pyJoin]
    | cons v rest' =>
      have hlen : (pyJoin sep (w :: v :: rest')).length =
          w.length + sep.length + (pyJoin sep (v :: rest')).length := by
        simp [pyJoin, String.length_append]
      have ihv := ih (by simp)
      simp only [List.map_cons, List.sum_cons] at ihv ⊢
      omega

/-- Relation between the Python running size and the emitted chunk string:
for a non-empty chunk, len(" ".join(chunk)) + 1 equals the running size
(one separator is counted per word, but the join inserts one fewer). -/
theorem pyJoin_space_length (l : List String) (h : l ≠ []) :
    (pyJoin " " l).length + 1 = listSize l := by
  have := pyJoin_length " " l h
  have hsep : (" " : String).length = 1 := rfl
  have hpos : (l.map (fun w => w.length + 1)).sum ≥ 1 := by
    cases l with
    | nil => exact absurd rfl h
    | cons w rest => simp only [List.map_cons, List.sum_cons]; omega
  simp only [hsep] at this
  simp only [listSize]
  omega

theorem pyJoin_cons (sep w : String) (rest : List String) (h : rest ≠ []) :
    pyJoin sep (w :: rest) = w ++ sep ++ pyJoin sep rest := by
  cases rest with
  | nil => exact absurd rfl h
  | cons v t => rfl

theorem pyJoin_append (sep : String) :
    ∀ (a b : List String), a ≠ [] → b ≠ [] →
      pyJoin sep (a ++ b) = pyJoin sep a ++ sep ++ pyJoin sep b := by
  intro a
  induction a with
  | nil => intro b h _; exact absurd rfl h
  | cons x a2 ih =>
    intro b _ hb
    cases a2 with
    | nil =>
      simp only [List.singleton_append]
      rw [pyJoin_cons sep x b hb]
      rfl
    | cons y t =>
      have h2 : (y :: t) ++ b ≠ [] := by simp
      rw [List.cons_append, pyJoin_cons sep x ((y :: t) ++ b) h2,
        ih b (by simp) hb, pyJoin_cons sep x (y :: t) (by simp)]
      simp [String.append_assoc]

theorem flatten_ne_nil_of_ne_nil {L : List (List String)} (hL : L ≠ [])
    (h : ∀ c ∈ L, c ≠ []) : L.flatten ≠ [] := by
  cases L with
  | nil => exact absurd rfl hL
  | cons c t =>
    have hc : c ≠ [] := h c (by simp)
    simp only [List.flatten_cons]
    intro hcon
    exact hc (List.append_eq_nil.mp hcon).1

theorem pyJoin_map_flatten :
    ∀ (L : List (List String)), (∀ c ∈ L, c ≠ []) →
      pyJoin " " (L.map (pyJoin " ")) = pyJoin " " L.flatten := by
  intro L
  induction L with
  | nil => intro _; rfl
  | cons a L2 ih =>
    intro h
    have ha : a ≠ [] := h a (by simp)
    by_cases hL2 : L2 = []
    · subst hL2; simp [pyJoin]
    · have hmem : ∀ c ∈ L2, c ≠ [] := fun c hc => h c (by simp [hc])
      have hmap : L2.map (pyJoin " ") ≠ [] := by
        simpa [List.map_eq_nil_iff] using hL2
      have hflat : L2.flatten ≠ [] :=
        flatten_ne_nil_of_ne_nil hL2 hmem
      rw [List.map_cons, pyJoin_cons " " (pyJoin " " a) (L2.map (pyJoin " ")) hmap,
        ih hmem, List.flatten_cons, pyJoin_append " " a L2.flatten ha hflat]

/-- C1: concatenating all chunks of _chunk_text, re-joined with single
spaces, reproduces the whitespace-normalized word sequence of the input:
the chunk word lists flatten to exactly str.split() of the text, so no
word is dropped, duplicated or reordered, and the rejoined chunks equal
the words rejoined with single spaces. -/
theorem chunk_text_preserves_word_sequence (text : String) (chunk_size : Nat) :
    (chunkWords text chunk_size).flatten = pySplit text ∧
    pyJoin " " (chunk_text text chunk_size) = pyJoin " " (pySplit text) := by
  constructor
  · simpa using chunkLoop_join chunk_size (pySplit text) [] 0
  · have hne : ∀ c ∈ chunkWords text chunk_size, c ≠ [] :=
      chunkLoop_ne_nil chunk_size (pySplit text) [] 0
    have := pyJoin_map_flatten (chunkWords text chunk_size) hne
    rw [chunk_text, this]
    congr 1
    simpa using chunkLoop_join chunk_size (pySplit text) [] 0

theorem chunkLoop_dropLast_size (cs : Nat) :
    ∀ (ws cur : List String) (size : Nat), size = listSize cur →
      ∀ c ∈ (chunkLoop cs ws cur size).dropLast, cs ≤ listSize c := by
  intro ws
  induction ws with
  | nil =>
    intro cur size _ c hc
    by_cases h : cur.isEmpty <;> simp [chunkLoop, h] at hc
  | cons w ws ih =>
    intro cur size hsz c hc
    simp only [chunkLoop] at hc
    by_cases h : cs ≤ size + (w.length + 1)
    · rw [if_pos h] at hc
      cases hrest : chunkLoop cs ws [] 0 with
      | nil => rw [hrest] at hc; simp at hc
      | cons r t =>
        rw [hrest, List.dropLast_cons₂, List.mem_cons] at hc
        rcases hc with hc | hc
        · subst hc
          have : listSize (cur ++ [w]) = listSize cur + (w.length + 1) := by
            simp [listSize]
          omega
        · have := ih [] 0 rfl c
          rw [hrest] at this
          exact this hc
    · rw [if_neg h] at hc
      refine ih (cur ++ [w]) (size + (w.length + 1)) ?_ c hc
      simp [listSize, hsz]

/-- C2 counterexample: with target size 5 and input text with words
ab, c, d the first chunk is the string made of ab and c joined by a
space, which has two words and string length 4, strictly below the
target, yet it is not the last chunk. The claim as stated (every
non-last chunk has length at least the target unless it has exactly
one word) is therefore false. -/
theorem chunk_text_claimed_bound_fails :
    chunk_text "ab c d" 5 = ["ab c", "d"] ∧
    ¬ (∀ c ∈ (chunk_text "ab c d" 5).dropLast,
        (pySplit c).length = 1 ∨ 5 ≤ c.length) := by
  constructor
  · rfl
  · decide

/-- C2 (amended): every chunk except possibly the last has string length
at least the target size minus one: its length plus a single separator
reaches the target. This holds with no exception for one-word chunks,
because the running count that triggers closing a chunk counts one
separator per word while the joined string carries one fewer. -/
theorem chunk_text_dropLast_min_size (text : String) (chunk_size : Nat) :
    ∀ c ∈ (chunk_text text chunk_size).dropLast, chunk_size ≤ c.length + 1 := by
  intro c hc
  rw [chunk_text, ← List.map_dropLast] at hc
  rcases List.mem_map.mp hc with ⟨c0, hc0, hjoin⟩
  have hsize : chunk_size ≤ listSize c0 :=
    chunkLoop_dropLast_size chunk_size (pySplit text) [] 0 rfl c0 hc0
  have hne : c0 ≠ [] :=
    chunkLoop_ne_nil chunk_size (pySplit text) [] 0 c0
      (List.mem_of_mem_dropLast hc0)
  subst hjoin
  have := pyJoin_space_length c0 hne
  omega

/-- C2 amended witness: in the counterexample text the non-last chunk of
length 4 does satisfy the amended bound 5 ≤ 4 + 1. -/
theorem chunk_text_dropLast_min_size_witness :
    (5 : Nat) ≤ ("ab c" : String).length + 1 :=
  chunk_text_dropLast_min_size "ab c d" 5 "ab c" (by decide)

/-- C3 counterexample: a whitespace-only input is a non-empty string,
yet the chunker returns the empty chunk sequence, so it is false that
only the empty input yields an empty sequence. -/
theorem chunk_text_nonempty_input_empty_output :
    (" " : String) ≠ "" ∧ chunk_text " " 500 = [] := by
  constructor
  · decide
  · rfl

theorem chunkLoop_ne_nil_of_input (cs : Nat) :
    ∀ (ws cur : List String) (size : Nat), cur ≠ [] ∨ ws ≠ [] →
      chunkLoop cs ws cur size ≠ [] := by
  intro ws
  induction ws with
  | nil =>
    intro cur size h
    have hcur : cur ≠ [] := by
      rcases h with h | h
      · exact h
      · exact absurd rfl h
    simp [chunkLoop, List.isEmpty_iff, hcur]
  | cons w ws ih =>
    intro cur size _
    simp only [chunkLoop]
    by_cases h : cs ≤ size + (w.length + 1)
    · simp [h]
    · simpa [h] using
        ih (cur ++ [w]) (size + (w.length + 1)) (Or.inl (by simp))

/-- C3 (amended): the chunker yields an empty chunk sequence exactly when
the input has no words at all, that is when str.split() of the text is
empty (the empty string and whitespace-only strings); any input holding
at least one non-whitespace word yields a non-empty chunk sequence. -/
theorem chunk_text_eq_nil_iff (text : String) (chunk_size : Nat) :
    chunk_text text chunk_size = [] ↔ pySplit text = [] := by
  rw [chunk_text, List.map_eq_nil_iff, chunkWords]
  constructor
  · intro h
    cases hw : pySplit text with
    | nil => rfl
    | cons w ws =>
      rw [hw] at h
      exact absurd h
        (chunkLoop_ne_nil_of_input chunk_size (w :: ws) [] 0 (Or.inr (by simp)))
  · intro h
    rw [h]
    rfl

/-! ## Tables and their text rendering (knowledge_base.py, _table_to_text)

A table arrives as a Python dict; the code only ever reads the keys
error and data, so the model is a structure with those two optional
fields (an absent key is none). The data grid is a list of rows of
string cells, as produced by extract_tables_from_docx.
-/

/-- Python table dict as used by _table_to_text and store_document: an
optional error marker and an optional data grid of string cells. -/
structure Table where
  error : Option String
  data : Option (List (List String))
deriving DecidableEq

/-- KnowledgeBase._table_to_text: an error table renders to its error
string verbatim; otherwise a non-empty grid renders as a pipe-joined
headers line from the first row followed by the next at most three rows
pipe-joined, all joined by newlines; a missing or empty grid renders to
the empty string. -/
def table_to_text (t : Table) : String :=
  match t.error with
  | some e => e
  | none =>
    match t.data with
    | none => ""
    | some [] => ""
    | some (headers :: rest) =>
      pyJoin "\n" (("Table headers: " ++ pyJoin " | " headers) ::
        (rest.take 3).map (fun row => pyJoin " | " row))

/-- C4: the table-to-text rendering returns the error string verbatim
when the table carries an error marker; otherwise it renders the first
row of the grid as a pipe-joined headers line followed by exactly
min(3, number of remaining rows) pipe-joined data lines, so at most 4
rows are rendered and the fifth and later rows are omitted. -/
theorem table_to_text_renders (t : Table) :
    (∀ e, t.error = some e → table_to_text t = e) ∧
    (t.error = none → ∀ headers rest, t.data = some (headers :: rest) →
      table_to_text t =
        pyJoin "\n" (("Table headers: " ++ pyJoin " | " headers) ::
          (rest.take 3).map (fun row => pyJoin " | " row)) ∧
      ((rest.take 3).map (fun row => pyJoin " | " row)).length =
        min rest.length 3) := by
  constructor
  · intro e he
    simp [table_to_text, he]
  · intro he headers rest hdata
    refine ⟨by simp [table_to_text, he, hdata], ?_⟩
    simp [Nat.min_comm]

/-- Example table carrying an error marker. -/
def errorTable : Table := { error := some "boom", data := none }

/-- Example table with a header row and four data rows. -/
def fiveRowTable : Table :=
  { error := none
    data := some [["h1", "h2"], ["a", "b"], ["c", "d"], ["e", "f"], ["g", "h"]] }

/-- C4 witness: a table carrying an error marker renders to that string,
and the five-row example grid renders as the headers line followed by
exactly the first three data rows, omitting the fifth row. -/
theorem table_to_text_renders_witness :
    table_to_text errorTable = "boom" ∧
    table_to_text fiveRowTable =
      "Table headers: h1 | h2" ++ "\n" ++ "a | b" ++ "\n" ++ "c | d" ++ "\n" ++ "e | f" := by
  constructor
  · exact (table_to_text_renders errorTable).1 "boom" rfl
  · have h := ((table_to_text_renders fiveRowTable).2
      rfl ["h1", "h2"] [["a", "b"], ["c", "d"], ["e", "f"], ["g", "h"]] rfl).1
    rw [h]
    rfl

/-! ## Question answering (my_qa_agents.py, QACrew.answer_question)

The retrieval results and the crew.kickoff completion are parameters:
search results come from the knowledge base and the kickoff result from
the reasoning oracle. answer_question assembles the answer dict from
them; the reasoning stages only contribute the answer text.
-/

/-- One entry of the list returned by KnowledgeBase.search_text. -/
structure TextSearchResult where
  content : String
  filename : String
  chunk_index : Nat
  score : Int
deriving DecidableEq

/-- One entry of the list returned by KnowledgeBase.search_tables. The
data field is the table reconstituted from its stored serialized form. -/
structure TableSearchResult where
  description : String
  filename : String
  table_index : Nat
  data : Table
  score : Int
deriving DecidableEq

/-- Return value of QACrew.answer_question. -/
structure QAAnswer where
  answer : String
  sources : List String
  agent_used : String
deriving DecidableEq

/-- QACrew.answer_question, given the two retrieval result lists and the
string form of the crew.kickoff result: the answer is the kickoff text,
sources are the two count strings, and agent_used is derived from the
two counts alone. -/
def answer_question (relevant_texts : List TextSearchResult)
    (relevant_tables : List TableSearchResult) (result : String) : QAAnswer :=
  let agent_used :=
    if relevant_texts.length > relevant_tables.length then "text_retrieval"
    else if relevant_tables.length > 0 then "table_analysis"
    else "combined"
  { answer := result
    sources := ["Text chunks: " ++ toString relevant_texts.length,
      "Tables: " ++ toString relevant_tables.length]
    agent_used := agent_used }

/-- C5: with n retrieved text matches and m retrieved table matches, the
answer has sources exactly the two strings Text chunks: n and Tables: m
in that order, agent_used is text_retrieval when n is greater than m,
else table_analysis when m is positive, else combined, a tie with
positive m yields table_analysis, and both fields are independent of the
reasoning result string. -/
theorem answer_question_sources_agent (texts : List TextSearchResult)
    (tables : List TableSearchResult) (result : String) :
    (answer_question texts tables result).sources =
      ["Text chunks: " ++ toString texts.length,
       "Tables: " ++ toString tables.length] ∧
    (answer_question texts tables result).agent_used =
      (if tables.length < texts.length then "text_retrieval"
       else if 0 < tables.length then "table_analysis" else "combined") ∧
    (texts.length = tables.length → 0 < tables.length →
      (answer_question texts tables result).agent_used = "table_analysis") ∧
    (∀ result2 : String,
      (answer_question texts tables result2).agent_used =
        (answer_question texts tables result).agent_used ∧
      (answer_question texts tables result2).sources =
        (answer_question texts tables result).sources) := by
  refine ⟨rfl, rfl, ?_, fun result2 => ⟨rfl, rfl⟩⟩
  intro heq hpos
  simp only [answer_question]
  have hlt : ¬ (texts.length > tables.length) := by omega
  simp [hlt, hpos]

/-- C5 witness: two text matches and two table matches, a tie with
positive table count, yield agent_used table_analysis. -/
theorem answer_question_sources_agent_witness :
    (answer_question
      [{ content := "c1", filename := "f", chunk_index := 0, score := 0 },
       { content := "c2", filename := "f", chunk_index := 1, score := 0 }]
      [{ description := "d1", filename := "f", table_index := 0,
         data := { error := none, data := none }, score := 0 },
       { description := "d2", filename := "f", table_index := 1,
         data := { error := none, data := none }, score := 0 }]
      "some answer").agent_used = "table_analysis" :=
  (answer_question_sources_agent
    [{ content := "c1", filename := "f", chunk_index := 0, score := 0 },
     { content := "c2", filename := "f", chunk_index := 1, score := 0 }]
    [{ description := "d1", filename := "f", table_index := 0,
       data := { error := none, data := none }, score := 0 },
     { description := "d2", filename := "f", table_index := 1,
       data := { error := none, data := none }, score := 0 }]
    "some answer").2.2.1 rfl (by decide)

/-! ## Search over the vector backend (knowledge_base.py)

The chroma backend is external: a query either returns a result record
(parallel lists documents, metadatas, distances, one inner list per
query string) or raises. Both search functions wrap their whole body in
try/except and return an empty list on any exception, whether it came
from the query call or from result processing (indexing metadatas[0] or
distances[0][i] can raise IndexError). Exceptions are modelled with
Except: the backend response is a parameter of type Except, and the
processing of the response is itself an Except computation whose error
is caught by the surrounding handler.
-/

/-- Metadata stored with one text chunk (written by store_document, read
by search_text). -/
structure TextChunkMeta where
  document_id : String
  filename : String
  chunk_index : Nat
  type : String
deriving DecidableEq

/-- Metadata stored with one table record (written by store_document,
read by search_tables). The table_data field stands for the JSON
serialization stored in the backend; the json.dumps and json.loads
round trip is abstracted into storing the table itself. -/
structure TableRecMeta where
  document_id : String
  filename : String
  table_index : Nat
  type : String
  table_data : Table
deriving DecidableEq

/-- Shape of a chroma query response over the text collection. Distances
are modelled with Int in place of Python floats; none of the verified
properties depends on the numeric type. -/
structure TextQueryResult where
  documents : List (List String)
  metadatas : List (List TextChunkMeta)
  distances : List (List Int)
deriving DecidableEq

/-- Shape of a chroma query response over the table collection. -/
structure TableQueryResult where
  documents : List (List String)
  metadatas : List (List TableRecMeta)
  distances : List (List Int)
deriving DecidableEq

/-- Python list indexing: out of range raises IndexError. -/
def pyIndex {α : Type} (l : List α) (i : Nat) : Except String α :=
  match l[i]? with
  | some a => Except.ok a
  | none => Except.error "IndexError"

/-- Score of the i-th result: distances[0][i] if distances is truthy,
else 0, with the indexing able to raise. -/
def scoreAt (distances : List (List Int)) (i : Nat) : Except String Int :=
  if distances.isEmpty then Except.ok 0
  else do
    let d0 ← pyIndex distances 0
    pyIndex d0 i

/-- Body of KnowledgeBase.search_text after the backend query returned:
when documents is truthy and its first inner list is truthy, build one
result per (document, metadata) pair of zip(documents[0], metadatas[0]);
otherwise return the empty list. Any indexing failure is an error that
the enclosing handler turns into an empty result. -/
def processTextQuery (r : TextQueryResult) : Except String (List TextSearchResult) :=
  match r.documents with
  | [] => Except.ok []
  | docs0 :: _ =>
    if docs0.isEmpty then Except.ok []
    else do
      let metas0 ← pyIndex r.metadatas 0
      (docs0.zip metas0).enum.mapM (fun p => do
        let score ← scoreAt r.distances p.1
        Except.ok { content := p.2.1, filename := p.2.2.filename,
                    chunk_index := p.2.2.chunk_index, score := score })

/-- Body of KnowledgeBase.search_tables after the backend query
returned, analogous to processTextQuery, additionally carrying the
reconstituted table data into each result. -/
def processTableQuery (r : TableQueryResult) : Except String (List TableSearchResult) :=
  match r.documents with
  | [] => Except.ok []
  | docs0 :: _ =>
    if docs0.isEmpty then Except.ok []
    else do
      let metas0 ← pyIndex r.metadatas 0
      (docs0.zip metas0).enum.mapM (fun p => do
        let score ← scoreAt r.distances p.1
        Except.ok { description := p.2.1, filename := p.2.2.filename,
                    table_index := p.2.2.table_index,
                    data := p.2.2.table_data, score := score })

/-- KnowledgeBase.search_text: the backend query either raises or
returns a response; the try/except catches any error from the query or
from processing and returns the empty list. -/
def search_text (resp : Except String TextQueryResult) : List TextSearchResult :=
  match resp.bind processTextQuery with
  | Except.ok results => results
  | Except.error _ => []

/-- KnowledgeBase.search_tables, same error handling as search_text. -/
def search_tables (resp : Except String TableQueryResult) : List TableSearchResult :=
  match resp.bind processTableQuery with
  | Except.ok results => results
  | Except.error _ => []

/-- C6: search_text and search_tables never propagate a failure: when
the backend query raises, each returns the empty list, and when result
processing raises (for example an out-of-range index into metadatas or
distances), each also returns the empty list. -/
theorem search_returns_empty_on_failure (e : String) :
    search_text (Except.error e) = [] ∧
    search_tables (Except.error e) = [] ∧
    (∀ r msg, processTextQuery r = Except.error msg →
      search_text (Except.ok r) = []) ∧
    (∀ r msg, processTableQuery r = Except.error msg →
      search_tables (Except.ok r) = []) := by
  refine ⟨rfl, rfl, ?_, ?_⟩
  · intro r msg h
    simp [search_text, Except.bind, h]
  · intro r msg h
    simp [search_tables, Except.bind, h]

/-- C6 witness: a raising backend yields the empty list, and a malformed
response (a non-empty documents list with an empty metadatas list, so
metadatas[0] raises IndexError) also yields the empty list. -/
theorem search_returns_empty_on_failure_witness :
    search_text (Except.error "backend down") = [] ∧
    search_text (Except.ok { documents := [["doc"]], metadatas := [], distances := [] }) = [] ∧
    search_tables (Except.ok { documents := [["doc"]], metadatas := [], distances := [] }) = [] :=
  ⟨(search_returns_empty_on_failure "backend down").1,
   (search_returns_empty_on_failure "backend down").2.2.1
     { documents := [["doc"]], metadatas := [], distances := [] } "IndexError" rfl,
   (search_returns_empty_on_failure "backend down").2.2.2
     { documents := [["doc"]], metadatas := [], distances := [] } "IndexError" rfl⟩

/-! ## Knowledge base state (knowledge_base.py)

The two chroma collections are modelled as entry lists and the
in-process documents dict as an association list from document id to its
metadata record. Python dict records are modelled as association lists
of key and value so that which keys a record carries is a real property
of the model. -/

/-- Value of one field of a Python dict record. -/
inductive PyVal where
  | str (s : String)
  | num (n : Nat)
deriving DecidableEq

/-- One entry of the text collection: its chroma id, the stored document
string, and its metadata. -/
structure TextEntry where
  id : String
  document : String
  metadata : TextChunkMeta
deriving DecidableEq

/-- One entry of the table collection. -/
structure TableEntry where
  id : String
  document : String
  metadata : TableRecMeta
deriving DecidableEq

/-- State of a KnowledgeBase instance: the two collections plus the
documents registry. -/
structure KBState where
  text_entries : List TextEntry
  table_entries : List TableEntry
  documents : List (String × List (String × PyVal))
deriving DecidableEq

/-- Freshly constructed knowledge base. -/
def kbEmpty : KBState := { text_entries := [], table_entries := [], documents := [] }

/-- Return value of DocumentProcessingCrew.process_document, which is
also what store_document receives as extracted_data. -/
structure ProcessResult where
  filename : String
  text_chunks : List String
  tables : List Table
  raw_text : String
  agent_analysis : String
deriving DecidableEq

/-- KnowledgeBase.store_document: add one collection entry per chunk and
per table (skipping each add when the corresponding list is empty, as
the Python truthiness checks do), then register the document metadata
record last. The fresh uuid doc_id and the created_at placeholder value
are parameters, standing for the two uuid4 calls. -/
def store_document (s : KBState) (doc_id : String) (created_at : String)
    (filename : String) (extracted_data : ProcessResult) : KBState :=
  let s1 := if extracted_data.text_chunks.isEmpty then s else
    { s with text_entries := s.text_entries ++
        extracted_data.text_chunks.enum.map (fun p =>
          { id := doc_id ++ "_text_" ++ toString p.1
            document := p.2
            metadata := { document_id := doc_id, filename := filename,
                          chunk_index := p.1, type := "text" } }) }
  let s2 := if extracted_data.tables.isEmpty then s1 else
    { s1 with table_entries := s1.table_entries ++
        extracted_data.tables.enum.map (fun p =>
          { id := doc_id ++ "_table_" ++ toString p.1
            document := table_to_text p.2
            metadata := { document_id := doc_id, filename := filename,
                          table_index := p.1, type := "table",
                          table_data := p.2 } }) }
  { s2 with documents := s2.documents ++
      [(doc_id, [("filename", PyVal.str filename),
                 ("text_chunks", PyVal.num extracted_data.text_chunks.length),
                 ("tables", PyVal.num extracted_data.tables.length),
                 ("created_at", PyVal.str created_at)])] }

/-- KnowledgeBase.list_documents: the values of the documents dict. -/
def list_documents (s : KBState) : List (List (String × PyVal)) :=
  s.documents.map Prod.snd

/-- Fault injection for the four backend storage calls made by
delete_document: a some value means that call raises with that message,
standing for an exception from the chroma layer. -/
structure DeleteFaults where
  text_get : Option String
  text_delete : Option String
  table_get : Option String
  table_delete : Option String
deriving DecidableEq

/-- Backend behaviour with no failures. -/
def noFaults : DeleteFaults :=
  { text_get := none, text_delete := none, table_get := none, table_delete := none }

/-- Result of one backend call under fault injection: the fault message
if the call raises, otherwise the given value. -/
def faultOr {α : Type} (fault : Option String) (a : α) : Except String α :=
  match fault with
  | some msg => Except.error msg
  | none => Except.ok a

/-- Try block of KnowledgeBase.delete_document: get the text collection
ids whose metadata document_id matches, delete them when any exist, do
the same for the table collection, then drop the registry entry when
present. -/
def delete_document_try (f : DeleteFaults) (s : KBState) (doc_id : String) :
    Except String KBState := do
  let text_ids ← faultOr f.text_get
    ((s.text_entries.filter (fun e => e.metadata.document_id == doc_id)).map TextEntry.id)
  let s1 ← (if text_ids.isEmpty then Except.ok s
    else faultOr f.text_delete
      { s with text_entries := s.text_entries.filter (fun e => !(text_ids.contains e.id)) })
  let table_ids ← faultOr f.table_get
    ((s1.table_entries.filter (fun e => e.metadata.document_id == doc_id)).map TableEntry.id)
  let s2 ← (if table_ids.isEmpty then Except.ok s1
    else faultOr f.table_delete
      { s1 with table_entries := s1.table_entries.filter (fun e => !(table_ids.contains e.id)) })
  let s3 := if s2.documents.any (fun p => p.1 == doc_id)
    then { s2 with documents := s2.documents.filter (fun p => !(p.1 == doc_id)) }
    else s2
  Except.ok s3

/-- KnowledgeBase.delete_document: the try block, with any exception
re-raised wrapped in an Error deleting document message. -/
def delete_document (f : DeleteFaults) (s : KBState) (doc_id : String) :
    Except String KBState :=
  match delete_document_try f s doc_id with
  | Except.ok s3 => Except.ok s3
  | Except.error e => Except.error ("Error deleting document: " ++ e)

theorem exceptOkBind {α β : Type} (a : α) (g : α → Except String β) :
    (Except.ok a >>= g : Except String β) = g a := rfl

theorem exceptErrorBind {α β : Type} (e : String) (g : α → Except String β) :
    ((Except.error e : Except String α) >>= g) = Except.error e := rfl

/-- Result state of a fault-free run of delete_document, written
componentwise: the second and third steps of the chain read collections
and registry fields the earlier steps never touch, so the chained record
updates collapse to independent per-field updates. -/
def deleteResult (s : KBState) (doc_id : String) : KBState :=
  let text_ids := (s.text_entries.filter
    (fun e => e.metadata.document_id == doc_id)).map TextEntry.id
  let table_ids := (s.table_entries.filter
    (fun e => e.metadata.document_id == doc_id)).map TableEntry.id
  { text_entries := if text_ids.isEmpty then s.text_entries
      else s.text_entries.filter (fun e => !(text_ids.contains e.id))
    table_entries := if table_ids.isEmpty then s.table_entries
      else s.table_entries.filter (fun e => !(table_ids.contains e.id))
    documents := if s.documents.any (fun p => p.1 == doc_id)
      then s.documents.filter (fun p => !(p.1 == doc_id))
      else s.documents }

theorem delete_try_noFaults_eq (s : KBState) (doc_id : String) :
    delete_document_try noFaults s doc_id = Except.ok (deleteResult s doc_id) := by
  simp only [delete_document_try, deleteResult, noFaults, faultOr, exceptOkBind]
  by_cases h1 : ((s.text_entries.filter
      (fun e => e.metadata.document_id == doc_id)).map TextEntry.id).isEmpty <;>
    simp only [h1, if_true, if_false, Bool.false_eq_true, ite_false, ite_true,
      exceptOkBind] <;>
    by_cases h2 : ((s.table_entries.filter
        (fun e => e.metadata.document_id == doc_id)).map TableEntry.id).isEmpty <;>
      simp [h1, h2, exceptOkBind] <;>
      by_cases h3 : s.documents.any (fun p => p.1 == doc_id) = true <;>
        simp [h3]

theorem delete_document_noFaults_eq (s : KBState) (doc_id : String) :
    delete_document noFaults s doc_id = Except.ok (deleteResult s doc_id) := by
  simp [delete_document, delete_try_noFaults_eq]

theorem deleteResult_text_clean (s : KBState) (doc_id : String) :
    ∀ e ∈ (deleteResult s doc_id).text_entries, e.metadata.document_id ≠ doc_id := by
  intro e he hmatch
  simp only [deleteResult] at he
  by_cases h1 : ((s.text_entries.filter
      (fun e => e.metadata.document_id == doc_id)).map TextEntry.id).isEmpty
  · have h1' := h1
    rw [List.isEmpty_iff, List.map_eq_nil_iff, List.filter_eq_nil_iff] at h1'
    simp only [h1, if_true] at he
    exact h1' e he (by simp [hmatch])
  · simp only [h1, if_false, Bool.false_eq_true, ite_false, List.mem_filter] at he
    have hnotin : e.id ∉ (s.text_entries.filter
        (fun x => x.metadata.document_id == doc_id)).map TextEntry.id := by
      simpa using he.2
    exact hnotin (List.mem_map_of_mem TextEntry.id
      (List.mem_filter.mpr ⟨he.1, by simp [hmatch]⟩))

theorem deleteResult_table_clean (s : KBState) (doc_id : String) :
    ∀ e ∈ (deleteResult s doc_id).table_entries, e.metadata.document_id ≠ doc_id := by
  intro e he hmatch
  simp only [deleteResult] at he
  by_cases h1 : ((s.table_entries.filter
      (fun e => e.metadata.document_id == doc_id)).map TableEntry.id).isEmpty
  · have h1' := h1
    rw [List.isEmpty_iff, List.map_eq_nil_iff, List.filter_eq_nil_iff] at h1'
    simp only [h1, if_true] at he
    exact h1' e he (by simp [hmatch])
  · simp only [h1, if_false, Bool.false_eq_true, ite_false, List.mem_filter] at he
    have hnotin : e.id ∉ (s.table_entries.filter
        (fun x => x.metadata.document_id == doc_id)).map TableEntry.id := by
      simpa using he.2
    exact hnotin (List.mem_map_of_mem TableEntry.id
      (List.mem_filter.mpr ⟨he.1, by simp [hmatch]⟩))

theorem deleteResult_registry_clean (s : KBState) (doc_id : String) :
    ∀ p ∈ (deleteResult s doc_id).documents, p.1 ≠ doc_id := by
  intro p hp hmatch
  simp only [deleteResult] at hp
  by_cases h1 : s.documents.any (fun q => q.1 == doc_id)
  · simp only [h1, if_true, List.mem_filter] at hp
    have := hp.2
    simp [hmatch] at this
  · simp only [h1, if_false, Bool.false_eq_true, ite_false] at hp
    rw [Bool.not_eq_true, List.any_eq_false] at h1
    exact h1 p hp (by simp [hmatch])

theorem deleteResult_noop (s : KBState) (doc_id : String)
    (htext : ∀ e ∈ s.text_entries, e.metadata.document_id ≠ doc_id)
    (htable : ∀ e ∈ s.table_entries, e.metadata.document_id ≠ doc_id)
    (hreg : ∀ p ∈ s.documents, p.1 ≠ doc_id) :
    deleteResult s doc_id = s := by
  have h1 : s.text_entries.filter (fun e => e.metadata.document_id == doc_id) = [] :=
    List.filter_eq_nil_iff.mpr (fun e he => by simp [htext e he])
  have h2 : s.table_entries.filter (fun e => e.metadata.document_id == doc_id) = [] :=
    List.filter_eq_nil_iff.mpr (fun e he => by simp [htable e he])
  have h3 : s.documents.any (fun p => p.1 == doc_id) = false :=
    List.any_eq_false.mpr (fun p hp => by simp [hreg p hp])
  simp [deleteResult, h1, h2, h3]

/-- C7: deleting a document leaves no orphans and is safe on missing
ids: with a fault-free backend, delete_document always returns normally,
the returned state holds no text entry, table entry or registry record
whose document id matches, and when nothing matches the state is
returned unchanged (a no-op, not an error); and when any of the four
underlying storage calls raises (the text get, the text delete when
matching chunks exist, the table get, or the table delete when matching
tables exist), delete_document raises a hard failure wrapping the
underlying message, and in general any error of the try block surfaces
wrapped in the Error deleting document message. -/
theorem delete_document_spec (s : KBState) (doc_id : String) :
    (∀ s2, delete_document noFaults s doc_id = Except.ok s2 →
      (∀ e ∈ s2.text_entries, e.metadata.document_id ≠ doc_id) ∧
      (∀ e ∈ s2.table_entries, e.metadata.document_id ≠ doc_id) ∧
      (∀ p ∈ s2.documents, p.1 ≠ doc_id)) ∧
    (∃ s2, delete_document noFaults s doc_id = Except.ok s2) ∧
    ((∀ e ∈ s.text_entries, e.metadata.document_id ≠ doc_id) →
     (∀ e ∈ s.table_entries, e.metadata.document_id ≠ doc_id) →
     (∀ p ∈ s.documents, p.1 ≠ doc_id) →
      delete_document noFaults s doc_id = Except.ok s) ∧
    (∀ f : DeleteFaults, ∀ msg, f.text_get = some msg →
      delete_document f s doc_id =
        Except.error ("Error deleting document: " ++ msg)) ∧
    (∀ f : DeleteFaults, ∀ msg, f.text_get = none → f.text_delete = some msg →
      ¬((s.text_entries.filter
          (fun e => e.metadata.document_id == doc_id)).map TextEntry.id).isEmpty →
      delete_document f s doc_id =
        Except.error ("Error deleting document: " ++ msg)) ∧
    (∀ f : DeleteFaults, ∀ msg, f.text_get = none →
      (((s.text_entries.filter
          (fun e => e.metadata.document_id == doc_id)).map TextEntry.id).isEmpty ∨
        f.text_delete = none) →
      f.table_get = some msg →
      delete_document f s doc_id =
        Except.error ("Error deleting document: " ++ msg)) ∧
    (∀ f : DeleteFaults, ∀ msg, f.text_get = none →
      (((s.text_entries.filter
          (fun e => e.metadata.document_id == doc_id)).map TextEntry.id).isEmpty ∨
        f.text_delete = none) →
      f.table_get = none → f.table_delete = some msg →
      ¬((s.table_entries.filter
          (fun e => e.metadata.document_id == doc_id)).map TableEntry.id).isEmpty →
      delete_document f s doc_id =
        Except.error ("Error deleting document: " ++ msg)) ∧
    (∀ f : DeleteFaults, ∀ e, delete_document_try f s doc_id = Except.error e →
      delete_document f s doc_id =
        Except.error ("Error deleting document: " ++ e)) := by
  refine ⟨?_, ?_, ?_, ?_, ?_, ?_, ?_, ?_⟩
  · intro s2 h
    rw [delete_document_noFaults_eq, Except.ok.injEq] at h
    subst h
    exact ⟨deleteResult_text_clean s doc_id, deleteResult_table_clean s doc_id,
      deleteResult_registry_clean s doc_id⟩
  · exact ⟨deleteResult s doc_id, delete_document_noFaults_eq s doc_id⟩
  · intro htext htable hreg
    rw [delete_document_noFaults_eq, deleteResult_noop s doc_id htext htable hreg]
  · intro f msg hf
    simp [delete_document, delete_document_try, faultOr, hf, exceptErrorBind]
  · intro f msg hg hd hne
    simp only [delete_document, delete_document_try, faultOr, hg, hd, exceptOkBind]
    rw [if_neg hne]
    rfl
  · intro f msg hg hor htg
    rcases hor with he | hd
    · simp only [delete_document, delete_document_try, faultOr, hg, htg,
        exceptOkBind]
      rw [if_pos he]
      rfl
    · by_cases he : ((s.text_entries.filter
          (fun e => e.metadata.document_id == doc_id)).map TextEntry.id).isEmpty
      · simp only [delete_document, delete_document_try, faultOr, hg, hd, htg,
          exceptOkBind]
        rw [if_pos he]
        rfl
      · simp only [delete_document, delete_document_try, faultOr, hg, hd, htg,
          exceptOkBind]
        rw [if_neg he]
        rfl
  · intro f msg hg hor htg htd hne
    rcases hor with he | hd
    · simp only [delete_document, delete_document_try, faultOr, hg, htg, htd,
        exceptOkBind]
      rw [if_pos he]
      simp only [exceptOkBind]
      rw [if_neg hne]
      rfl
    · by_cases he : ((s.text_entries.filter
          (fun e => e.metadata.document_id == doc_id)).map TextEntry.id).isEmpty
      · simp only [delete_document, delete_document_try, faultOr, hg, hd, htg,
          htd, exceptOkBind]
        rw [if_pos he]
        simp only [exceptOkBind]
        rw [if_neg hne]
        rfl
      · simp only [delete_document, delete_document_try, faultOr, hg, hd, htg,
          htd, exceptOkBind]
        rw [if_neg he]
        simp only [exceptOkBind]
        rw [if_neg hne]
        rfl
  · intro f e h
    simp [delete_document, h]

/-- Backend behaviour whose text-collection get raises. -/
def textGetFault : DeleteFaults :=
  { text_get := some "disk failure", text_delete := none,
    table_get := none, table_delete := none }

/-- Backend behaviour whose text-collection delete raises. -/
def textDeleteFault : DeleteFaults :=
  { text_get := none, text_delete := some "disk failure",
    table_get := none, table_delete := none }

/-- Backend behaviour whose table-collection get raises. -/
def tableGetFault : DeleteFaults :=
  { text_get := none, text_delete := none,
    table_get := some "disk failure", table_delete := none }

/-- Backend behaviour whose table-collection delete raises. -/
def tableDeleteFault : DeleteFaults :=
  { text_get := none, text_delete := none,
    table_get := none, table_delete := some "disk failure" }

/-- One stored text chunk of document d1. -/
def sampleTextEntry : TextEntry :=
  { id := "d1_text_0"
    document := "chunk"
    metadata := { document_id := "d1", filename := "a.docx", chunk_index := 0, type := "text" } }

/-- One stored table of document d1. -/
def sampleTableEntry : TableEntry :=
  { id := "d1_table_0"
    document := "tbl"
    metadata := { document_id := "d1", filename := "a.docx", table_index := 0, type := "table", table_data := { error := none, data := none } } }

/-- Knowledge base holding one text chunk and one table of document d1,
so that both delete calls are actually reached when deleting d1. -/
def kbSample : KBState :=
  { text_entries := [sampleTextEntry]
    table_entries := [sampleTableEntry]
    documents := [("d1", [("filename", PyVal.str "a.docx"),
      ("text_chunks", PyVal.num 1), ("tables", PyVal.num 1),
      ("created_at", PyVal.str "ts")])] }

/-- C7 witness: on the empty knowledge base, deleting an unknown id is a
no-op returning the unchanged state, whose collections then trivially
hold no matching entry; and on a state holding entries of d1, a raising
backend call at any of the four storage operations makes delete_document
fail with the wrapped message, as does any error of the try block. -/
theorem delete_document_spec_witness :
    delete_document noFaults kbEmpty "d1" = Except.ok kbEmpty ∧
    (∀ e ∈ kbEmpty.text_entries, e.metadata.document_id ≠ "d1") ∧
    delete_document textGetFault kbEmpty "d1" =
      Except.error ("Error deleting document: " ++ "disk failure") ∧
    delete_document textDeleteFault kbSample "d1" =
      Except.error ("Error deleting document: " ++ "disk failure") ∧
    delete_document tableGetFault kbSample "d1" =
      Except.error ("Error deleting document: " ++ "disk failure") ∧
    delete_document tableDeleteFault kbSample "d1" =
      Except.error ("Error deleting document: " ++ "disk failure") ∧
    delete_document textGetFault kbSample "d1" =
      Except.error ("Error deleting document: " ++ "disk failure") :=
  ⟨(delete_document_spec kbEmpty "d1").2.2.1 (by simp [kbEmpty]) (by simp [kbEmpty])
      (by simp [kbEmpty]),
   ((delete_document_spec kbEmpty "d1").1 kbEmpty
      ((delete_document_spec kbEmpty "d1").2.2.1 (by simp [kbEmpty]) (by simp [kbEmpty])
        (by simp [kbEmpty]))).1,
   (delete_document_spec kbEmpty "d1").2.2.2.1 textGetFault "disk failure" rfl,
   (delete_document_spec kbSample "d1").2.2.2.2.1 textDeleteFault "disk failure"
     rfl rfl (by decide),
   (delete_document_spec kbSample "d1").2.2.2.2.2.1 tableGetFault "disk failure"
     rfl (Or.inr rfl) rfl,
   (delete_document_spec kbSample "d1").2.2.2.2.2.2.1 tableDeleteFault "disk failure"
     rfl (Or.inr rfl) rfl rfl (by decide),
   (delete_document_spec kbSample "d1").2.2.2.2.2.2.2 textGetFault "disk failure" rfl⟩

/-! ## Document ingestion (my_doc_agents.py, process_document)

The file parsers and the crewai kickoff are external: the parser outputs
are pre-read into an Extractors record and the kickoff outcome is an
Except parameter (ok with the completion text, or error when the
reasoning oracle raises). The function derives the extension from the
lowercased filename, picks the extraction branch or raises on an
unsupported format, runs the advisory crew, and builds the result dict.
The try/except around the final block only covers _chunk_text and the
dict construction, which are total here, so the fallback branch which
would substitute an Agent processing failed note is unreachable in the
model; crucially crew.kickoff sits before the try, outside it. -/

/-- Model of Python str.lower(): lowercase every character. -/
def pyLower (s : String) : String :=
  String.mk (s.data.map Char.toLower)

/-- Accumulating loop for Python str.split(sep) with a one-character
separator: empty pieces are kept, unlike the no-argument split. -/
def pySplitOnAux (sepc : Char) : List Char → List Char → List String
  | acc, [] => [String.mk acc.reverse]
  | acc, ch :: rest =>
    if ch = sepc then String.mk acc.reverse :: pySplitOnAux sepc [] rest
    else pySplitOnAux sepc (ch :: acc) rest

/-- Model of Python str.split(sep) for a one-character separator; the
result is always non-empty. -/
def pySplitOnChar (sepc : Char) (s : String) : List String :=
  pySplitOnAux sepc [] s.data

/-- Extension tag of a filename as process_document derives it:
filename.lower().split(dot)[-1]. -/
def fileExtension (filename : String) : String :=
  (pySplitOnChar '.' (pyLower filename)).getLastD ""

/-- Outputs of the external file parsers for the file being ingested. -/
structure Extractors where
  pdf_text : String
  docx_text : String
  docx_tables : List Table
deriving DecidableEq

/-- DocumentProcessingCrew.process_document: derive the extension, pick
the extraction branch (pdf text with no tables, docx text and tables) or
raise ValueError naming an unsupported extension, run the advisory crew
(whose failure propagates, since the kickoff call is outside the
try/except), then assemble the result with the 500-character chunks of
the raw text and the kickoff text as agent_analysis. -/
def process_document (ex : Extractors) (kick : Except String String)
    (filename : String) : Except String ProcessResult := do
  let file_extension := fileExtension filename
  let (raw_text, tables) ←
    (if file_extension = "pdf" then Except.ok (ex.pdf_text, ([] : List Table))
     else if file_extension = "docx" then Except.ok (ex.docx_text, ex.docx_tables)
     else Except.error ("Unsupported file format: " ++ file_extension))
  let result ← kick
  Except.ok { filename := filename, text_chunks := chunk_text raw_text 500,
              tables := tables, raw_text := raw_text, agent_analysis := result }

/-- Sample parser outputs used by concrete evaluations. -/
def exSample : Extractors :=
  { pdf_text := "pdf text", docx_text := "docx text", docx_tables := [] }

/-- C8 evidence: when the advisory crew kickoff raises, process_document
propagates that failure instead of returning the raw chunks with a
fallback note: the kickoff call happens before the try/except begins, so
the Agent processing failed fallback cannot catch it and ingestion fails
without storing anything. -/
theorem process_document_kickoff_error_propagates :
    process_document exSample (Except.error "LLM API failure") "a.pdf" =
      Except.error "LLM API failure" := rfl

/-- C9: for a filename whose derived extension is neither pdf nor docx,
process_document fails with the ValueError message naming the offending
extension, before any extraction or storage takes place. -/
theorem process_document_unsupported (ex : Extractors) (kick : Except String String)
    (filename : String) (h1 : fileExtension filename ≠ "pdf")
    (h2 : fileExtension filename ≠ "docx") :
    process_document ex kick filename =
      Except.error ("Unsupported file format: " ++ fileExtension filename) := by
  simp [process_document, h1, h2, exceptErrorBind]

/-- C9 witness: a txt file is rejected with the message naming txt. -/
theorem process_document_unsupported_witness :
    process_document exSample (Except.ok "analysis") "report.txt" =
      Except.error ("Unsupported file format: " ++ "txt") := by
  rw [process_document_unsupported exSample (Except.ok "analysis") "report.txt"
    (by decide) (by decide)]
  rfl

/-! ## Listing after a sequence of stores (C10) -/

/-- Arguments of one store_document call: the caller-supplied filename
and extracted data plus the two uuid values the call draws. -/
structure StoreCall where
  doc_id : String
  created_at : String
  filename : String
  extracted : ProcessResult
deriving DecidableEq

/-- Run a sequence of store_document calls against a starting state. -/
def applyStores (calls : List StoreCall) (s : KBState) : KBState :=
  calls.foldl
    (fun st c => store_document st c.doc_id c.created_at c.filename c.extracted) s

theorem store_document_documents (s : KBState) (doc_id created_at filename : String)
    (x : ProcessResult) :
    (store_document s doc_id created_at filename x).documents =
      s.documents ++
        [(doc_id, [("filename", PyVal.str filename),
                   ("text_chunks", PyVal.num x.text_chunks.length),
                   ("tables", PyVal.num x.tables.length),
                   ("created_at", PyVal.str created_at)])] := by
  simp only [store_document]
  by_cases h1 : x.text_chunks.isEmpty <;> by_cases h2 : x.tables.isEmpty <;>
    simp [h1, h2]

theorem applyStores_keys (calls : List StoreCall) :
    ∀ (s : KBState),
      (∀ rec ∈ list_documents s,
        rec.map Prod.fst = ["filename", "text_chunks", "tables", "created_at"]) →
      ∀ rec ∈ list_documents (applyStores calls s),
        rec.map Prod.fst = ["filename", "text_chunks", "tables", "created_at"] := by
  induction calls with
  | nil => intro s hs; simpa [applyStores] using hs
  | cons c calls ih =>
    intro s hs
    have hstep : ∀ rec ∈ list_documents
        (store_document s c.doc_id c.created_at c.filename c.extracted),
        rec.map Prod.fst = ["filename", "text_chunks", "tables", "created_at"] := by
      intro rec hrec
      rw [list_documents, store_document_documents, List.map_append,
        List.mem_append] at hrec
      rcases hrec with hrec | hrec
      · exact hs rec hrec
      · simp only [List.map_cons, List.map_nil, List.mem_singleton] at hrec
        subst hrec
        rfl
    have := ih (store_document s c.doc_id c.created_at c.filename c.extracted) hstep
    simpa [applyStores] using this

/-- C10: after any sequence of store_document calls, every record that
list_documents returns carries exactly the keys filename, text_chunks,
tables and created_at in that order; in particular no record carries an
id key, so a caller cannot read any document id off the listing. -/
theorem list_documents_record_keys (calls : List StoreCall) :
    ∀ rec ∈ list_documents (applyStores calls kbEmpty),
      rec.map Prod.fst = ["filename", "text_chunks", "tables", "created_at"] ∧
      "id" ∉ rec.map Prod.fst := by
  intro rec hrec
  have hkeys := applyStores_keys calls kbEmpty (by simp [list_documents, kbEmpty])
    rec hrec
  refine ⟨hkeys, ?_⟩
  rw [hkeys]
  decide

/-- One concrete store_document call. -/
def sampleStore : StoreCall :=
  { doc_id := "id-1"
    created_at := "ts-1"
    filename := "a.pdf"
    extracted := { filename := "a.pdf", text_chunks := ["chunk one"], tables := [],
                   raw_text := "chunk one", agent_analysis := "ok" } }

/-- C10 witness: after one concrete store, the single listed record has
exactly the four expected keys and no id key. -/
theorem list_documents_record_keys_witness :
    ([("filename", PyVal.str "a.pdf"), ("text_chunks", PyVal.num 1),
      ("tables", PyVal.num 0), ("created_at", PyVal.str "ts-1")]).map Prod.fst =
        ["filename", "text_chunks", "tables", "created_at"] ∧
    "id" ∉ ([("filename", PyVal.str "a.pdf"), ("text_chunks", PyVal.num 1),
      ("tables", PyVal.num 0), ("created_at", PyVal.str "ts-1")]).map Prod.fst :=
  list_documents_record_keys [sampleStore]
    [("filename", PyVal.str "a.pdf"), ("text_chunks", PyVal.num 1),
     ("tables", PyVal.num 0), ("created_at", PyVal.str "ts-1")] (by decide)

end AADIS
